import Mathlib

/-!
Shallow embedding of the asasvirtuais/react state-synchronization core.

The embedding covers:
* the keyed index store of `useIndex` (src/src/hooks.ts),
* the single-flight guards `useAction` (src/src/hooks.ts) and `useMethod`
  (crud unit), modelled as pure state-transition functions on the observable
  guard state `(loading, error, result)`,
* the per-table reconciliation wrappers `createWithIndex`, `updateWithIndex`,
  `removeWithIndex`, `listWithIndex` and the payload construction of the five
  backend calls (crud unit),
* the accessors produced by `createContextFromHook` (context unit) and the
  hand-written accessors `useFields` (src/src/fields.tsx) and `useForm`
  (forms unit).

JavaScript objects are modelled as insertion-ordered association lists over
string keys; `undefined` is modelled as `none`; a rejected promise is an
`Except.error`; the empty string models a falsy (absent or empty) id where the
source checks id truthiness.  Render scheduling, effects (`autoTrigger`),
and the `onSuccess` callback are outside the embedded fragment; the guards are
modelled at the level of one `trigger` call observed from a given state.
-/

/-- Reading a property of a JS object: the value stored at the key, or `none`
(that is, `undefined`) when the key is absent. -/
def objLookup {T : Type} : List (String × T) → String → Option T
  | [], _ => none
  | (k', v) :: rest, k => if k' = k then some v else objLookup rest k

/-- Property assignment on a JS object: an existing key keeps its position and
receives the new value, a new key is appended, following the insertion-order
semantics of JavaScript objects. -/
def objSet {T : Type} : List (String × T) → String → T → List (String × T)
  | [], k, v => [(k, v)]
  | (k', v') :: rest, k, v =>
    if k' = k then (k', v) :: rest else (k', v') :: objSet rest k v

/-- Spread merge: models a JS object literal spreading `a` and then `b`, so
entries of `b` are assigned one by one on top of `a`. -/
def objMerge {T : Type} (a b : List (String × T)) : List (String × T) :=
  b.foldl (fun m kv => objSet m kv.1 kv.2) a

/-- Object.fromEntries: builds an object from a list of entries; a later entry
with an already-seen key overwrites the stored value in place. -/
def objFromEntries {T : Type} (l : List (String × T)) : List (String × T) :=
  objMerge [] l

/-- The JS delete operator on an object key: drops the property, preserving
the order of the remaining properties. -/
def objDelete {T : Type} : List (String × T) → String → List (String × T)
  | [], _ => []
  | (k', v) :: rest, k => if k' = k then rest else (k', v) :: objDelete rest k

/-- An entity as cached in a table index: `id` is the string identity field
and `val` stands for the remaining payload.  The empty string in `id` models
a falsy id (absent or empty) where the source tests id truthiness. -/
structure Entity where
  id : String
  val : Nat
deriving DecidableEq, Repr

/-- useIndex.set (src/src/hooks.ts): upserts the given entities, keyed by
their id field, by spreading Object.fromEntries of the id/entity pairs over
the previous index. -/
def indexSet (idx : List (String × Entity)) (params : List Entity) :
    List (String × Entity) :=
  objMerge idx (objFromEntries (params.map fun d => (d.id, d)))

/-- useIndex.remove (src/src/hooks.ts): for each entity, deletes its id from
the index when the stored value is truthy; stored values are entity objects,
hence truthy exactly when the key is present. -/
def indexRemove (idx : List (String × Entity)) (params : List Entity) :
    List (String × Entity) :=
  params.foldl
    (fun m d =>
      match objLookup m d.id with
      | some _ => objDelete m d.id
      | none => m)
    idx

/-- useIndex.array (src/src/hooks.ts): Object.values of the index, in key
insertion order. -/
def indexArray (idx : List (String × Entity)) : List Entity :=
  idx.map Prod.snd

/-- Observable state of one guarded action: the `loading`, `error` and
`result` cells of `useAction` and of `useMethod`.  Failure values are carried
as strings. -/
structure GuardState (R : Type) where
  loading : Bool
  error : Option String
  result : Option R
deriving DecidableEq, Repr

/-- State of a `useAction` guard after the synchronous prefix of a proceeding
`trigger` call (src/src/hooks.ts lines 22 and below): only `setLoading(true)`
runs; `useAction` has no `setError` call on this path, so the prior error is
kept. -/
def actionPre {R : Type} (s : GuardState R) : GuardState R :=
  ⟨true, s.error, s.result⟩

/-- State of a `useMethod` guard after the synchronous prefix of a proceeding
`trigger` call: `setLoading(true)` followed by `setError(null)`. -/
def methodPre {R : Type} (s : GuardState R) : GuardState R :=
  ⟨true, none, s.result⟩

/-- One `trigger` call of `useAction` (src/src/hooks.ts lines 19 to 40),
given the outcome `run` that the wrapped operation would produce.  Returns
the final guard state, what the awaiting caller observes (`Except.ok none`
models a promise resolved with `undefined`), and whether the wrapped
operation was invoked.  On failure the catch block records the error and the
call resolves with `undefined`; nothing is re-thrown. -/
def actionTrigger {R : Type} (s : GuardState R) (run : Except String R) :
    GuardState R × Except String (Option R) × Bool :=
  if s.loading then (s, Except.ok none, false)
  else
    let s1 := actionPre s
    match run with
    | Except.ok r => (⟨false, s1.error, some r⟩, Except.ok (some r), true)
    | Except.error e => (⟨false, some e, s1.result⟩, Except.ok none, true)

/-- One `trigger` call of `useMethod` (crud unit), given the outcome `run`
of the wrapped operation.  Unlike `useAction`, the error cell is cleared
before invoking the operation and a failure is re-thrown to the caller after
being recorded. -/
def methodTrigger {R : Type} (s : GuardState R) (run : Except String R) :
    GuardState R × Except String (Option R) × Bool :=
  if s.loading then (s, Except.ok none, false)
  else
    let s1 := methodPre s
    match run with
    | Except.ok r => (⟨false, s1.error, some r⟩, Except.ok (some r), true)
    | Except.error e => (⟨false, some e, s1.result⟩, Except.error e, true)

/-- Payload built by `useAction.trigger` (src/src/hooks.ts lines 24 to 27):
the call-site props are spread first, then the guard defaults are spread on
top. -/
def actionPayload {V : Type} (props defaults : List (String × V)) :
    List (String × V) :=
  objMerge props defaults

/-- The accessor returned by `createContextFromHook` (context unit): it reads
the nearest context value and casts it; with no enclosing Provider the
context carries its default, `undefined`, which is returned unchecked. -/
def createContextAccessor {V : Type} (ctx : Option V) : Option V :=
  ctx

/-- The `useFields` accessor (src/src/fields.tsx lines 92 to 98): throws a
missing-provider error when the context is `undefined`, otherwise returns the
context value. -/
def useFieldsAccessor {V : Type} (ctx : Option V) : Except String V :=
  match ctx with
  | none => Except.error "useFields must be used within a FieldsProvider"
  | some v => Except.ok v

/-- The `useForm` accessor (forms unit): throws a missing-provider error when
the context is `undefined`, otherwise returns the context value. -/
def useFormAccessor {V : Type} (ctx : Option V) : Except String V :=
  match ctx with
  | none => Except.error "useForm must be used within a FormProvider"
  | some v => Except.ok v

/-- Payload of the wrapped backend `find` call in `useTableProvider` (crud
unit): the caller props spread first, then the handle table name. -/
def findPayload {V : Type} (props : List (String × V)) (t : V) :
    List (String × V) :=
  objMerge props [("table", t)]

/-- Payload of the wrapped backend `create` call in `useTableProvider`. -/
def createPayload {V : Type} (props : List (String × V)) (t : V) :
    List (String × V) :=
  objMerge props [("table", t)]

/-- Payload of the wrapped backend `update` call in `useTableProvider`. -/
def updatePayload {V : Type} (props : List (String × V)) (t : V) :
    List (String × V) :=
  objMerge props [("table", t)]

/-- Payload of the wrapped backend `remove` call in `useTableProvider`. -/
def removePayload {V : Type} (props : List (String × V)) (t : V) :
    List (String × V) :=
  objMerge props [("table", t)]

/-- Payload of the wrapped backend `list` call in `useTableProvider`. -/
def listPayload {V : Type} (props : List (String × V)) (t : V) :
    List (String × V) :=
  objMerge props [("table", t)]

/-- createWithIndex (crud unit): awaits the backend create; on success, if
the result is truthy and carries a truthy id, upserts it into the index; a
rejection propagates before any index mutation. -/
def createWithIndex (idx : List (String × Entity))
    (run : Except String (Option Entity)) :
    List (String × Entity) × Except String (Option Entity) :=
  match run with
  | Except.error e => (idx, Except.error e)
  | Except.ok none => (idx, Except.ok none)
  | Except.ok (some ent) =>
    if ent.id ≠ "" then (indexSet idx [ent], Except.ok (some ent))
    else (idx, Except.ok (some ent))

/-- updateWithIndex (crud unit): same reconciliation shape as create. -/
def updateWithIndex (idx : List (String × Entity))
    (run : Except String (Option Entity)) :
    List (String × Entity) × Except String (Option Entity) :=
  match run with
  | Except.error e => (idx, Except.error e)
  | Except.ok none => (idx, Except.ok none)
  | Except.ok (some ent) =>
    if ent.id ≠ "" then (indexSet idx [ent], Except.ok (some ent))
    else (idx, Except.ok (some ent))

/-- removeWithIndex (crud unit): on success with a truthy id, removes the
returned entity from the index. -/
def removeWithIndex (idx : List (String × Entity))
    (run : Except String (Option Entity)) :
    List (String × Entity) × Except String (Option Entity) :=
  match run with
  | Except.error e => (idx, Except.error e)
  | Except.ok none => (idx, Except.ok none)
  | Except.ok (some ent) =>
    if ent.id ≠ "" then (indexRemove idx [ent], Except.ok (some ent))
    else (idx, Except.ok (some ent))

/-- listWithIndex (crud unit): on a successful list (an array result), the
index is wholesale replaced by Object.fromEntries of the id/item pairs; a
rejection propagates before any index mutation. -/
def listWithIndex (idx : List (String × Entity))
    (run : Except String (List Entity)) :
    List (String × Entity) × Except String (List Entity) :=
  match run with
  | Except.error e => (idx, Except.error e)
  | Except.ok items =>
    (objFromEntries (items.map fun it => (it.id, it)), Except.ok items)

/-- Well-formedness of a table index: every stored entity sits under its own
id, as established by keying all writes through the id field. -/
def indexWF (idx : List (String × Entity)) : Prop :=
  ∀ kv ∈ idx, (Prod.snd kv).id = Prod.fst kv

/-- Keys of a JS object are unique. -/
def keysNodup {T : Type} (m : List (String × T)) : Prop :=
  (m.map Prod.fst).Nodup

instance (idx : List (String × Entity)) : Decidable (indexWF idx) := by
  unfold indexWF; infer_instance

instance {T : Type} (m : List (String × T)) : Decidable (keysNodup m) := by
  unfold keysNodup; infer_instance

/-- Looking up the key just assigned yields the assigned value. -/
theorem objLookup_objSet_self {T : Type} (m : List (String × T)) (k : String)
    (v : T) : objLookup (objSet m k v) k = some v := by
  induction m with
  | nil => simp [objSet, objLookup]
  | cons kv rest ih =>
    obtain ⟨k', v'⟩ := kv
    by_cases h : k' = k
    · simp [objSet, objLookup, h]
    · simp [objSet, objLookup, h, ih]

/-- Assignment does not change the value stored at other keys. -/
theorem objLookup_objSet_ne {T : Type} (m : List (String × T)) (k k' : String)
    (v : T) (h : k' ≠ k) : objLookup (objSet m k v) k' = objLookup m k' := by
  induction m with
  | nil => simp [objSet, objLookup, Ne.symm h]
  | cons kv rest ih =>
    obtain ⟨k₀, v₀⟩ := kv
    by_cases h₀ : k₀ = k
    · subst h₀
      simp [objSet, objLookup, Ne.symm h]
    · simp [objSet, objLookup, h₀, ih]

/-- Assigning a key that is already present keeps the object size. -/
theorem objSet_length_of_lookup {T : Type} (m : List (String × T))
    (k : String) (v w : T) (h : objLookup m k = some w) :
    (objSet m k v).length = m.length := by
  induction m with
  | nil => simp [objLookup] at h
  | cons kv rest ih =>
    obtain ⟨k₀, v₀⟩ := kv
    by_cases h₀ : k₀ = k
    · simp [objSet, h₀]
    · simp [objLookup, h₀] at h
      simp [objSet, h₀, ih h]

/-- A value found by lookup is among the object values. -/
theorem objLookup_mem_snd {T : Type} (m : List (String × T)) (k : String)
    (v : T) (h : objLookup m k = some v) : v ∈ m.map Prod.snd := by
  induction m with
  | nil => simp [objLookup] at h
  | cons kv rest ih =>
    obtain ⟨k₀, v₀⟩ := kv
    by_cases h₀ : k₀ = k
    · simp [objLookup, h₀] at h
      simp [h]
    · simp [objLookup, h₀] at h
      simp [ih h]

/-- The keys after assignment are the old keys, extended by the assigned key
when it is new. -/
theorem objSet_mem_keys {T : Type} (m : List (String × T)) (k : String)
    (v : T) (a : String) :
    a ∈ (objSet m k v).map Prod.fst ↔ a ∈ m.map Prod.fst ∨ a = k := by
  induction m with
  | nil => simp [objSet]
  | cons kv rest ih =>
    obtain ⟨k₀, v₀⟩ := kv
    by_cases h₀ : k₀ = k
    · subst h₀
      by_cases ha : a = k₀ <;> simp [objSet, ha]
    · simp [objSet, h₀, ih]
      tauto

/-- Assignment preserves uniqueness of keys. -/
theorem keysNodup_objSet {T : Type} (m : List (String × T)) (k : String)
    (v : T) (h : keysNodup m) : keysNodup (objSet m k v) := by
  induction m with
  | nil => simp [keysNodup, objSet]
  | cons kv rest ih =>
    obtain ⟨k₀, v₀⟩ := kv
    simp only [keysNodup, List.map_cons, List.nodup_cons] at h
    by_cases h₀ : k₀ = k
    · simp only [objSet, if_pos h₀, keysNodup, List.map_cons, List.nodup_cons]
      exact ⟨h.1, h.2⟩
    · have hrest := ih h.2
      simp only [objSet, if_neg h₀, keysNodup, List.map_cons, List.nodup_cons]
      refine ⟨?_, hrest⟩
      intro hmem
      rcases (objSet_mem_keys rest k v k₀).mp hmem with hin | hk
      · exact h.1 hin
      · exact h₀ hk

/-- Assignment of an entity under its own id preserves index
well-formedness. -/
theorem indexWF_objSet (m : List (String × Entity)) (k : String) (v : Entity)
    (hv : v.id = k) (h : indexWF m) : indexWF (objSet m k v) := by
  induction m with
  | nil =>
    intro kv hkv
    simp [objSet] at hkv
    simp [hkv, hv]
  | cons kv₀ rest ih =>
    obtain ⟨k₀, v₀⟩ := kv₀
    have h₀ : v₀.id = k₀ := h (k₀, v₀) (List.mem_cons_self _ _)
    have hrest : indexWF rest := fun kv hkv => h kv (List.mem_cons_of_mem _ hkv)
    by_cases hk : k₀ = k
    · intro kv hkv
      simp [objSet, hk] at hkv
      rcases hkv with hkv | hkv
      · simp [hkv, hv]
      · exact hrest kv hkv
    · intro kv hkv
      simp [objSet, hk] at hkv
      rcases hkv with hkv | hkv
      · simp [hkv, h₀]
      · exact ih hrest kv hkv

/-- With unique keys, membership of a pair determines the lookup result. -/
theorem objLookup_of_mem_nodup {T : Type} (m : List (String × T))
    (k : String) (v : T) (hnd : keysNodup m) (hm : (k, v) ∈ m) :
    objLookup m k = some v := by
  induction m with
  | nil => simp at hm
  | cons kv₀ rest ih =>
    obtain ⟨k₀, v₀⟩ := kv₀
    simp only [keysNodup, List.map_cons, List.nodup_cons] at hnd
    rcases List.mem_cons.mp hm with hm | hm
    · have hk : k = k₀ := congrArg Prod.fst hm
      have hv : v = v₀ := congrArg Prod.snd hm
      simp [objLookup, hk.symm, hv]
    · by_cases hk : k₀ = k
      · subst hk
        exact absurd (List.mem_map_of_mem Prod.fst hm) hnd.1
      · simp only [objLookup, if_neg hk]
        exact ih hnd.2 hm

/-- Merging binds nothing at a key absent from the right object. -/
theorem objLookup_objMerge_of_notMem {T : Type} (a b : List (String × T))
    (k : String) (h : k ∉ b.map Prod.fst) :
    objLookup (objMerge a b) k = objLookup a k := by
  induction b generalizing a with
  | nil => rfl
  | cons kv bs ih =>
    obtain ⟨k₀, v₀⟩ := kv
    simp only [List.map_cons, List.mem_cons, not_or] at h
    have hstep : objMerge a ((k₀, v₀) :: bs) = objMerge (objSet a k₀ v₀) bs :=
      rfl
    rw [hstep, ih _ h.2, objLookup_objSet_ne _ _ _ _ h.1]

/-- Merging installs every binding of a unique-keyed right object. -/
theorem objLookup_objMerge_of_nodup {T : Type} (a b : List (String × T))
    (k : String) (v : T) (hnd : keysNodup b) (h : objLookup b k = some v) :
    objLookup (objMerge a b) k = some v := by
  induction b generalizing a with
  | nil => simp [objLookup] at h
  | cons kv bs ih =>
    obtain ⟨k₀, v₀⟩ := kv
    simp only [keysNodup, List.map_cons, List.nodup_cons] at hnd
    have hstep : objMerge a ((k₀, v₀) :: bs) = objMerge (objSet a k₀ v₀) bs :=
      rfl
    by_cases hk : k₀ = k
    · subst hk
      have hv : v₀ = v := by simpa [objLookup] using h
      rw [hstep, objLookup_objMerge_of_notMem _ _ _ hnd.1,
        objLookup_objSet_self, hv]
    · simp only [objLookup, if_neg hk] at h
      rw [hstep]
      exact ih _ hnd.2 h

/-- Looking up the id of a listed entity in the id-keyed entry list finds the
entity itself, provided ids are unique. -/
theorem objLookup_entries_of_nodup (items : List Entity) (e : Entity)
    (hids : (items.map Entity.id).Nodup) (he : e ∈ items) :
    objLookup (items.map fun it => (it.id, it)) e.id = some e := by
  induction items with
  | nil => simp at he
  | cons it its ih =>
    simp only [List.map_cons, List.nodup_cons] at hids
    rcases List.mem_cons.mp he with he | he
    · subst he
      simp [objLookup]
    · by_cases hk : it.id = e.id
      · have hmem : it.id ∈ List.map Entity.id its := by
          rw [hk]
          exact List.mem_map_of_mem Entity.id he
        exact absurd hmem hids.1
      · simp only [objLookup, if_neg hk]
        exact ih hids.2 he

/-- indexSet with a single entity is one object assignment under the id. -/
theorem indexSet_single (idx : List (String × Entity)) (e : Entity) :
    indexSet idx [e] = objSet idx e.id e := rfl

/-- C1, counterexample: the accessor produced by createContextFromHook,
invoked with no enclosing Provider, silently returns the context default
`undefined` (`none`) instead of raising a missing-provider error; this
refutes the claim for the scoped-injection bindings built from
createContextFromHook. -/
theorem createContextFromHook_accessor_returns_undefined :
    createContextAccessor (none : Option Nat) = none := rfl

/-- C1, amended: the hand-written accessors useFields and useForm fail fast
with an error naming the missing-provider contract, but the accessor produced
by createContextFromHook performs no such check: it returns the nearest
context value unchecked, hence `undefined` when no matching Provider encloses
the call. -/
theorem accessor_missing_provider_behavior (V : Type) (v : V)
    (ctx : Option V) :
    useFieldsAccessor (none : Option V)
      = Except.error "useFields must be used within a FieldsProvider" ∧
    useFormAccessor (none : Option V)
      = Except.error "useForm must be used within a FormProvider" ∧
    useFieldsAccessor (some v) = Except.ok v ∧
    useFormAccessor (some v) = Except.ok v ∧
    createContextAccessor ctx = ctx :=
  ⟨rfl, rfl, rfl, rfl, rfl⟩

/-- C2: a trigger call issued while the loading flag is true returns
immediately with an undefined outcome, does not invoke the wrapped operation,
and leaves the guard state (loading, error, result) unchanged, for useAction
and for useMethod alike. -/
theorem trigger_drops_reentrant_call {R : Type} (s : GuardState R)
    (f g : Except String R) (h : s.loading = true) :
    actionTrigger s f = (s, Except.ok none, false) ∧
    methodTrigger s g = (s, Except.ok none, false) := by
  constructor <;> simp [actionTrigger, methodTrigger, h]

/-- C2 witness at a concrete loading state. -/
theorem trigger_drops_reentrant_call_witness :
    actionTrigger (⟨true, none, none⟩ : GuardState Nat) (Except.ok 5)
      = (⟨true, none, none⟩, Except.ok none, false) ∧
    methodTrigger (⟨true, none, none⟩ : GuardState Nat) (Except.error "x")
      = (⟨true, none, none⟩, Except.ok none, false) :=
  trigger_drops_reentrant_call ⟨true, none, none⟩ (Except.ok 5)
    (Except.error "x") rfl

/-- C3, counterexample: when the wrapped operation of a useAction guard
fails, the trigger call resolves with `undefined` (the catch block swallows
the failure) instead of re-raising it to the immediate caller. -/
theorem useAction_trigger_swallows_failure :
    (actionTrigger (⟨false, none, none⟩ : GuardState Nat)
        (Except.error "boom")).2.1 ≠ Except.error "boom" := by
  simp [actionTrigger, actionPre]

/-- C3, amended: on failure both guards set the error cell to the failure
value, leave the prior result untouched and end with loading false, but only
useMethod re-raises the failure to the caller of trigger; useAction resolves
with `undefined`. -/
theorem trigger_failure_state_and_propagation {R : Type} (s : GuardState R)
    (e : String) (h : s.loading = false) :
    methodTrigger s (Except.error e)
      = (⟨false, some e, s.result⟩, Except.error e, true) ∧
    actionTrigger s (Except.error e)
      = (⟨false, some e, s.result⟩, Except.ok none, true) := by
  constructor <;>
    simp [methodTrigger, actionTrigger, methodPre, actionPre, h]

/-- C3 witness at a concrete idle state holding a prior result. -/
theorem trigger_failure_state_and_propagation_witness :
    methodTrigger (⟨false, none, some 7⟩ : GuardState Nat)
        (Except.error "boom")
      = (⟨false, some "boom", some 7⟩, Except.error "boom", true) ∧
    actionTrigger (⟨false, none, some 7⟩ : GuardState Nat)
        (Except.error "boom")
      = (⟨false, some "boom", some 7⟩, Except.ok none, true) :=
  trigger_failure_state_and_propagation ⟨false, none, some 7⟩ "boom" rfl

/-- C5: in every one of the five wrapped backend calls of a table handle, the
table field of the payload equals the declared table name of the handle, the
handle name being spread after the caller props so that a caller-supplied
table field is overridden. -/
theorem table_name_fixed_in_payload {V : Type} (props : List (String × V))
    (t : V) :
    objLookup (findPayload props t) "table" = some t ∧
    objLookup (createPayload props t) "table" = some t ∧
    objLookup (updatePayload props t) "table" = some t ∧
    objLookup (removePayload props t) "table" = some t ∧
    objLookup (listPayload props t) "table" = some t := by
  have h : objLookup (objMerge props [("table", t)]) "table" = some t := by
    have hm : objMerge props [("table", t)] = objSet props "table" t := rfl
    rw [hm, objLookup_objSet_self]
  exact ⟨h, h, h, h, h⟩

/-- C6: the payload of a proceeding useAction trigger is the call-site input
spread first and the guard defaults spread second, so on key collision the
defaults value overrides the explicitly passed input value. -/
theorem defaults_override_input_on_collision {V : Type}
    (props defaults : List (String × V)) (k : String) (v : V)
    (hnd : keysNodup defaults) (hv : objLookup defaults k = some v) :
    objLookup (actionPayload props defaults) k = some v :=
  objLookup_objMerge_of_nodup props defaults k v hnd hv

/-- C6 witness: the defaults entry for the colliding key id wins over the
explicit input entry. -/
theorem defaults_override_input_on_collision_witness :
    objLookup (actionPayload [("id", 1), ("n", 2)] [("id", 9)]) "id"
      = some 9 :=
  defaults_override_input_on_collision [("id", 1), ("n", 2)] [("id", 9)]
    "id" 9 (by decide) (by decide)

/-- C7, counterexample: a useAction guard holding a stale error proceeds
through a successful trigger and still holds that error afterwards; useAction
never clears the error cell, neither before invoking the operation nor on
success. -/
theorem useAction_trigger_keeps_stale_error :
    ((actionTrigger (⟨false, some "old", none⟩ : GuardState Nat)
        (Except.ok 5)).1).error ≠ none := by
  simp [actionTrigger, actionPre]

/-- C7, amended: a proceeding useMethod trigger clears the error cell in its
synchronous prefix and a success ends with the result set, the error empty
and loading false; a proceeding useAction trigger keeps the prior error both
in its synchronous prefix and through a success. -/
theorem trigger_proceed_error_clearing {R : Type} (s : GuardState R)
    (r : R) (h : s.loading = false) :
    methodPre s = ⟨true, none, s.result⟩ ∧
    methodTrigger s (Except.ok r)
      = (⟨false, none, some r⟩, Except.ok (some r), true) ∧
    actionPre s = ⟨true, s.error, s.result⟩ ∧
    actionTrigger s (Except.ok r)
      = (⟨false, s.error, some r⟩, Except.ok (some r), true) := by
  refine ⟨rfl, ?_, rfl, ?_⟩ <;>
    simp [methodTrigger, actionTrigger, methodPre, actionPre, h]

/-- C7 witness at a concrete idle state holding a stale error. -/
theorem trigger_proceed_error_clearing_witness :
    methodPre (⟨false, some "old", none⟩ : GuardState Nat)
      = ⟨true, none, none⟩ ∧
    methodTrigger (⟨false, some "old", none⟩ : GuardState Nat) (Except.ok 3)
      = (⟨false, none, some 3⟩, Except.ok (some 3), true) ∧
    actionPre (⟨false, some "old", none⟩ : GuardState Nat)
      = ⟨true, some "old", none⟩ ∧
    actionTrigger (⟨false, some "old", none⟩ : GuardState Nat) (Except.ok 3)
      = (⟨false, some "old", some 3⟩, Except.ok (some 3), true) :=
  trigger_proceed_error_clearing ⟨false, some "old", none⟩ 3 rfl

/-- C4: after a successful list, the index equals exactly the mapping built
from the returned entries keyed by identity: the index is wholesale replaced
by that mapping, every returned entity (entity identities being unique within
a table) is found under its id, and every id absent from the result is
dropped from the index. -/
theorem list_full_resync (idx : List (String × Entity))
    (items : List Entity) (hids : (items.map Entity.id).Nodup) :
    (listWithIndex idx (Except.ok items)).1
      = objFromEntries (items.map fun it => (it.id, it)) ∧
    (∀ e ∈ items,
      objLookup (listWithIndex idx (Except.ok items)).1 e.id = some e) ∧
    (∀ k, k ∉ items.map Entity.id →
      objLookup (listWithIndex idx (Except.ok items)).1 k = none) := by
  have hcomp : List.map Prod.fst (items.map fun it => (it.id, it))
      = items.map Entity.id := by
    simp only [List.map_map]
    rfl
  refine ⟨rfl, ?_, ?_⟩
  · intro e he
    have hknd : keysNodup (items.map fun it => (it.id, it)) := by
      unfold keysNodup
      rw [hcomp]
      exact hids
    exact objLookup_objMerge_of_nodup [] _ _ _ hknd
      (objLookup_entries_of_nodup items e hids he)
  · intro k hk
    have hk' : k ∉ List.map Prod.fst (items.map fun it => (it.id, it)) := by
      rw [hcomp]
      exact hk
    exact objLookup_objMerge_of_notMem [] _ _ hk'

/-- C4 witness: a concrete two-element list result fully replaces a
one-element index. -/
theorem list_full_resync_witness :
    (listWithIndex [("1", ⟨"1", 7⟩)]
        (Except.ok [(⟨"2", 1⟩ : Entity), ⟨"3", 2⟩])).1
      = objFromEntries
          ([(⟨"2", 1⟩ : Entity), ⟨"3", 2⟩].map fun it => (it.id, it)) ∧
    (∀ e ∈ [(⟨"2", 1⟩ : Entity), ⟨"3", 2⟩],
      objLookup (listWithIndex [("1", ⟨"1", 7⟩)]
        (Except.ok [(⟨"2", 1⟩ : Entity), ⟨"3", 2⟩])).1 e.id = some e) ∧
    (∀ k, k ∉ [(⟨"2", 1⟩ : Entity), ⟨"3", 2⟩].map Entity.id →
      objLookup (listWithIndex [("1", ⟨"1", 7⟩)]
        (Except.ok [(⟨"2", 1⟩ : Entity), ⟨"3", 2⟩])).1 k = none) :=
  list_full_resync [("1", ⟨"1", 7⟩)] [⟨"2", 1⟩, ⟨"3", 2⟩] (by decide)

/-- C8: upserting an entity and then a second entity sharing its identity
keeps the index size unchanged, the derived array contains the second entity
and no longer the first, and within one call with several arguments sharing
an identity the last argument wins.  The index is assumed well formed (ids
keyed under themselves, unique keys), as every store write establishes. -/
theorem indexSet_upsert_last_write_wins (idx : List (String × Entity))
    (e e' : Entity) (hwf : indexWF idx) (hnd : keysNodup idx)
    (hid : e'.id = e.id) (hne : e ≠ e') :
    (indexSet (indexSet idx [e]) [e']).length = (indexSet idx [e]).length ∧
    e' ∈ indexArray (indexSet (indexSet idx [e]) [e']) ∧
    e ∉ indexArray (indexSet (indexSet idx [e]) [e']) ∧
    objLookup (indexSet idx [e, e']) e.id = some e' := by
  have h1 : indexSet idx [e] = objSet idx e.id e := rfl
  have h2 : indexSet (objSet idx e.id e) [e']
      = objSet (objSet idx e.id e) e.id e' := by
    rw [indexSet_single, hid]
  refine ⟨?_, ?_, ?_, ?_⟩
  · rw [h1, h2]
    exact objSet_length_of_lookup _ _ _ _ (objLookup_objSet_self idx e.id e)
  · rw [h1, h2]
    exact objLookup_mem_snd _ _ _ (objLookup_objSet_self _ e.id e')
  · rw [h1, h2]
    intro hmem
    have hwf2 : indexWF (objSet (objSet idx e.id e) e.id e') :=
      indexWF_objSet _ _ _ hid (indexWF_objSet _ _ _ rfl hwf)
    have hnd2 : keysNodup (objSet (objSet idx e.id e) e.id e') :=
      keysNodup_objSet _ _ _ (keysNodup_objSet _ _ _ hnd)
    obtain ⟨kv, hkv, hsnd⟩ := List.mem_map.mp hmem
    have hkfst : kv.1 = e.id := by
      have hkv2 := hwf2 kv hkv
      rw [hsnd] at hkv2
      exact hkv2.symm
    have hkpair : (e.id, e) ∈ objSet (objSet idx e.id e) e.id e' := by
      have hkv' : kv = (e.id, e) := Prod.ext hkfst hsnd
      rw [← hkv']
      exact hkv
    have hlook : objLookup (objSet (objSet idx e.id e) e.id e') e.id = some e :=
      objLookup_of_mem_nodup _ _ _ hnd2 hkpair
    rw [objLookup_objSet_self] at hlook
    exact hne (Option.some.inj hlook).symm
  · have hp : indexSet idx [e, e']
        = objMerge idx (objSet [(e.id, e)] e'.id e') := rfl
    rw [hp, hid]
    have hcollapse : objSet [(e.id, e)] e.id e' = [(e.id, e')] := by
      simp [objSet]
    rw [hcollapse]
    have hm : objMerge idx [(e.id, e')] = objSet idx e.id e' := rfl
    rw [hm, objLookup_objSet_self]

/-- C8 witness on a concrete well-formed index. -/
theorem indexSet_upsert_last_write_wins_witness :
    (indexSet (indexSet [("1", ⟨"1", 1⟩)] [(⟨"2", 5⟩ : Entity)])
        [(⟨"2", 9⟩ : Entity)]).length
      = (indexSet [("1", ⟨"1", 1⟩)] [(⟨"2", 5⟩ : Entity)]).length ∧
    (⟨"2", 9⟩ : Entity) ∈ indexArray
      (indexSet (indexSet [("1", ⟨"1", 1⟩)] [(⟨"2", 5⟩ : Entity)])
        [(⟨"2", 9⟩ : Entity)]) ∧
    (⟨"2", 5⟩ : Entity) ∉ indexArray
      (indexSet (indexSet [("1", ⟨"1", 1⟩)] [(⟨"2", 5⟩ : Entity)])
        [(⟨"2", 9⟩ : Entity)]) ∧
    objLookup (indexSet [("1", ⟨"1", 1⟩)]
        [(⟨"2", 5⟩ : Entity), ⟨"2", 9⟩]) "2" = some ⟨"2", 9⟩ :=
  indexSet_upsert_last_write_wins [("1", ⟨"1", 1⟩)] ⟨"2", 5⟩ ⟨"2", 9⟩
    (by decide) (by decide) rfl (by decide)

/-- C9: removing an entity whose identity is not present leaves the index
unchanged; the removal operation is total, so no error is raised. -/
theorem indexRemove_absent_noop (idx : List (String × Entity)) (e : Entity)
    (h : objLookup idx e.id = none) : indexRemove idx [e] = idx := by
  simp [indexRemove, h]

/-- C9 witness: removing an absent id from a concrete index. -/
theorem indexRemove_absent_noop_witness :
    indexRemove [("1", ⟨"1", 5⟩)] [(⟨"2", 0⟩ : Entity)] = [("1", ⟨"1", 5⟩)] :=
  indexRemove_absent_noop [("1", ⟨"1", 5⟩)] ⟨"2", 0⟩ (by decide)

/-- C10: a failed backend call leaves the table index completely unchanged
for all four reconciling operations, a null success result leaves it
unchanged for create, update and remove, and so does a success result whose
id is not truthy; index mutations happen only after a success carrying a
truthy id. -/
theorem reconciliation_only_after_success (idx : List (String × Entity))
    (err : String) (ent : Entity) (hid : ent.id = "") :
    (createWithIndex idx (Except.error err)).1 = idx ∧
    (updateWithIndex idx (Except.error err)).1 = idx ∧
    (removeWithIndex idx (Except.error err)).1 = idx ∧
    (listWithIndex idx (Except.error err)).1 = idx ∧
    (createWithIndex idx (Except.ok none)).1 = idx ∧
    (updateWithIndex idx (Except.ok none)).1 = idx ∧
    (removeWithIndex idx (Except.ok none)).1 = idx ∧
    (createWithIndex idx (Except.ok (some ent))).1 = idx ∧
    (updateWithIndex idx (Except.ok (some ent))).1 = idx ∧
    (removeWithIndex idx (Except.ok (some ent))).1 = idx := by
  simp [createWithIndex, updateWithIndex, removeWithIndex, listWithIndex,
    hid]

/-- C10 witness on a concrete index, rejection and id-less entity. -/
theorem reconciliation_only_after_success_witness :
    (createWithIndex [("1", ⟨"1", 0⟩)] (Except.error "boom")).1
      = [("1", ⟨"1", 0⟩)] ∧
    (updateWithIndex [("1", ⟨"1", 0⟩)] (Except.error "boom")).1
      = [("1", ⟨"1", 0⟩)] ∧
    (removeWithIndex [("1", ⟨"1", 0⟩)] (Except.error "boom")).1
      = [("1", ⟨"1", 0⟩)] ∧
    (listWithIndex [("1", ⟨"1", 0⟩)] (Except.error "boom")).1
      = [("1", ⟨"1", 0⟩)] ∧
    (createWithIndex [("1", ⟨"1", 0⟩)] (Except.ok none)).1
      = [("1", ⟨"1", 0⟩)] ∧
    (updateWithIndex [("1", ⟨"1", 0⟩)] (Except.ok none)).1
      = [("1", ⟨"1", 0⟩)] ∧
    (removeWithIndex [("1", ⟨"1", 0⟩)] (Except.ok none)).1
      = [("1", ⟨"1", 0⟩)] ∧
    (createWithIndex [("1", ⟨"1", 0⟩)] (Except.ok (some ⟨"", 5⟩))).1
      = [("1", ⟨"1", 0⟩)] ∧
    (updateWithIndex [("1", ⟨"1", 0⟩)] (Except.ok (some ⟨"", 5⟩))).1
      = [("1", ⟨"1", 0⟩)] ∧
    (removeWithIndex [("1", ⟨"1", 0⟩)] (Except.ok (some ⟨"", 5⟩))).1
      = [("1", ⟨"1", 0⟩)] :=
  reconciliation_only_after_success [("1", ⟨"1", 0⟩)] "boom" ⟨"", 5⟩ rfl

example : objSet [("a", 1), ("b", 2)] "a" 9 = [("a", 9), ("b", 2)] := by decide
example : objSet [("a", 1)] "c" 9 = [("a", 1), ("c", 9)] := by decide
example : objMerge [("a", 1), ("b", 2)] [("a", 9), ("c", 3)]
    = [("a", 9), ("b", 2), ("c", 3)] := by decide
example : indexSet [] [⟨"1", 5⟩] = [("1", ⟨"1", 5⟩)] := by decide
example : indexRemove [("1", ⟨"1", 5⟩)] [⟨"2", 0⟩] = [("1", ⟨"1", 5⟩)] := by
  decide
